import Mathlib

/-!
Verification of the Sequential Monitoring & Pooling Engine of the tsa-tool
repository (`src/lib/statistics.ts`), shallowly embedded in Lean 4.

Modelling conventions:
* JavaScript `number` arithmetic is idealized as real arithmetic (`ℝ`).
* Study cell counts are natural numbers (the data model requires non-negative
  integers); all engine arithmetic casts them into `ℝ`, mirroring the source.
* The IEEE value `Infinity` appears in the source only as a sentinel for an
  infinite standard error / variance of the Mantel-Haenszel pool; it is
  modelled by `Option ℝ` (`none` = infinite SE).  The branches of
  `normalQuantile` that return `±Infinity` (for `p ≤ 0` / `p ≥ 1`) are modelled
  by the placeholder constants `jsPosInf` / `jsNegInf`; no theorem below
  depends on the value of those branches.
* The upper confidence limit `exp(log or + 1.96·se)` with `se = Infinity` is
  `Infinity` in JavaScript; the corresponding record field is set to
  `jsPosInf` (again, no theorem depends on it).  The lower limit
  `exp(log or - 1.96·se)` is `0` in JavaScript and is modelled as `0`.
* Interpretation titles and messages are presentation strings; only the
  interpretation tag (`type`) is modelled.
* Loops with a bounded iteration count and an early `break` (the incomplete
  gamma series and continued fraction) are modelled by structural recursion on
  an explicit fuel counter equal to the source's iteration bound.
-/

namespace TSAEngine

/-- A study's 2×2 table, from `types.ts` (`Study`).  The `id` field is never
read by the engine and is omitted. -/
structure Study where
  name : String
  year : ℤ
  eventsTrt : ℕ
  totalTrt : ℕ
  eventsCtrl : ℕ
  totalCtrl : ℕ
deriving DecidableEq, Repr

/-- Futility boundary policy selector, from `types.ts` (`FutilityBoundaryType`). -/
inductive FutilityBoundaryType where
  | none
  | obrienFleming
  | pocock
  | conditionalPower
deriving DecidableEq, Repr

/-- Analysis design parameters, from `types.ts` (`TSAParams`). -/
structure TSAParams where
  alpha : ℝ
  beta : ℝ
  controlRate : ℝ
  effectSize : ℝ
  heterogeneityCorrection : ℝ
  futilityBoundaryType : Option FutilityBoundaryType
  useI2Adjustment : Option Bool

/-- Placeholder for the IEEE `+Infinity` returned by `normalQuantile` at
`p ≥ 1` (no claim exercises that branch). -/
def jsPosInf : ℝ := 10 ^ 308

/-- Placeholder for the IEEE `-Infinity` returned by `normalQuantile` at
`p ≤ 0` (no claim exercises that branch). -/
def jsNegInf : ℝ := -(10 ^ 308)

/-- Horner evaluation of the numerator polynomial of the central branch of
`normalQuantile` (coefficient array `a` of the source), at `r = q²`. -/
def acklamCentralNum (r : ℝ) : ℝ :=
  (((((-39.69683028665376) * r + 220.9460984245205) * r +
    (-275.9285104469687)) * r + 138.3577518672690) * r +
    (-30.66479806614716)) * r + 2.506628277459239


/-- Horner evaluation of the denominator polynomial of the central branch of
`normalQuantile` (coefficient array `b` of the source), at `r = q²`. -/
def acklamCentralDen (r : ℝ) : ℝ :=
  (((((-54.47609879822406) * r + 161.5858368580409) * r +
    (-155.6989798598866)) * r + 66.80131188771972) * r +
    (-13.28068155288572)) * r + 1

/-- Horner evaluation of the numerator polynomial of the tail branches of
`normalQuantile` (coefficient array `c` of the source). -/
def acklamTailNum (q : ℝ) : ℝ :=
  (((((-0.007784894002430293) * q + (-0.3223964580411365)) * q +
    (-2.400758277161838)) * q + (-2.549732539343734)) * q +
    4.374664141464968) * q + 2.938163982698783

/-- Horner evaluation of the denominator polynomial of the tail branches of
`normalQuantile` (coefficient array `d` of the source). -/
def acklamTailDen (q : ℝ) : ℝ :=
  (((0.007784695709041462 * q + 0.3224671290700398) * q +
    2.445134137142996) * q + 3.754408661907416) * q + 1

/-- Normal distribution quantile function (inverse CDF), Acklam-type rational
approximation; direct transcription of `normalQuantile` in `statistics.ts`
with the Horner polynomials named above. -/
noncomputable def normalQuantile (p : ℝ) : ℝ :=
  if p ≤ 0 then jsNegInf
  else if 1 ≤ p then jsPosInf
  else if p = 0.5 then 0
  else if p < 0.02425 then
    let q := Real.sqrt (-2 * Real.log p);
    acklamTailNum q / acklamTailDen q
  else if p ≤ 1 - 0.02425 then
    let q := p - 0.5;
    let r := q * q;
    acklamCentralNum r * q / acklamCentralDen r
  else
    let q := Real.sqrt (-2 * Real.log (1 - p));
    -acklamTailNum q / acklamTailDen q

/-- Horner evaluation of the Abramowitz & Stegun 7.1.26 polynomial of
`normalCDF` (coefficients `a1..a5` of the source), before the final
multiplication by `t`. -/
def asErfPoly (t : ℝ) : ℝ :=
  (((1.061405429 * t + (-1.453152027)) * t + 1.421413741) * t +
    (-0.284496736)) * t + 0.254829592

/-- Standard normal CDF via the Abramowitz & Stegun 7.1.26 erf approximation;
direct transcription of `normalCDF` in `statistics.ts`. -/
noncomputable def normalCDF (x : ℝ) : ℝ :=
  let sign : ℝ := if x < 0 then -1 else 1;
  let absX := |x| / Real.sqrt 2;
  let t := 1 / (1 + 0.3275911 * absX);
  let y := 1 - asErfPoly t * t * Real.exp (-absX * absX);
  0.5 * (1 + sign * y)

/-- Lanczos log-gamma, main branch (`x ≥ 0.5`) of `logGamma` in
`statistics.ts`; `x` is shifted by one and the series accumulated. -/
noncomputable def logGammaMain (x : ℝ) : ℝ :=
  let x' := x - 1;
  let a := 0.99999999999980993 + 676.5203681218851 / (x' + 1) +
      (-1259.1392167224028) / (x' + 2) + 771.32342877765313 / (x' + 3) +
      (-176.61502916214059) / (x' + 4) + 12.507343278686905 / (x' + 5) +
      (-0.13857109526572012) / (x' + 6) + 9.9843695780195716e-6 / (x' + 7) +
      1.5056327351493116e-7 / (x' + 8)
  let t := x' + 7 + 0.5;
  0.5 * Real.log (2 * Real.pi) + (x' + 0.5) * Real.log t - t + Real.log a

/-- `logGamma` from `statistics.ts`: the reflection branch for `x < 0.5`
recurses once into the main branch (its argument `1 - x` exceeds `0.5`), so
the recursion is unrolled here. -/
noncomputable def logGamma (x : ℝ) : ℝ :=
  if x < 0.5 then
    Real.log (Real.pi / Real.sin (Real.pi * x)) - logGammaMain (1 - x)
  else logGammaMain x

/-- The series loop of `regularizedGammaP` (`for n = 1; n < 100` with an early
break once `|term| < 1e-10`), modelled by fuel-counted recursion; `n` is the
current loop index, `fuel` the remaining iteration budget (99 at entry). -/
noncomputable def gammaPSeriesGo (a x : ℝ) : ℕ → ℕ → ℝ → ℝ → ℝ
  | 0, _, _, sum => sum
  | fuel + 1, n, term, sum =>
      let term' := term * (x / (a + n));
      let sum' := sum + term';
      if |term'| < 1e-10 then sum'
      else gammaPSeriesGo a x fuel (n + 1) term' sum'

/-- One step of the continued-fraction loop of `regularizedGammaQ`; the state
is `(b, c, d, h)` as in the source. -/
noncomputable def gammaQStep (a : ℝ) (i : ℕ) :
    ℝ × ℝ × ℝ × ℝ → (ℝ × ℝ × ℝ × ℝ) × Bool
  | (b, c, d, h) =>
      let an := -(i : ℝ) * ((i : ℝ) - a);
      let b' := b + 2;
      let d₁ := an * d + b';
      let d₂ := if |d₁| < 1e-30 then 1e-30 else d₁;
      let c₁ := b' + an / c;
      let c₂ := if |c₁| < 1e-30 then 1e-30 else c₁;
      let d₃ := 1 / d₂;
      let del := d₃ * c₂;
      ((b', c₂, d₃, h * del), decide (|del - 1| < 1e-10))

/-- The continued-fraction loop of `regularizedGammaQ` (`for i = 1; i ≤ 100`
with an early break once `|del - 1| < 1e-10`), fuel-counted (100 at entry). -/
noncomputable def gammaQGo (a : ℝ) : ℕ → ℕ → ℝ × ℝ × ℝ × ℝ → ℝ
  | 0, _, st => st.2.2.2
  | fuel + 1, i, st =>
      let next := gammaQStep a i st;
      if next.2 then next.1.2.2.2
      else gammaQGo a fuel (i + 1) next.1

/-- `regularizedGammaQ` from `statistics.ts` (upper regularized incomplete
gamma via continued fraction). -/
noncomputable def regularizedGammaQ (a x : ℝ) : ℝ :=
  let b := x + 1 - a;
  let c := 1 / 1e-30;
  let d := 1 / b;
  let h := gammaQGo a 100 1 (b, c, d, d);
  Real.exp (-x + a * Real.log x - logGamma a) * h

/-- `regularizedGammaP` from `statistics.ts` (lower regularized incomplete
gamma: series for `x < a + 1`, complement of the continued fraction
otherwise). -/
noncomputable def regularizedGammaP (a x : ℝ) : ℝ :=
  if x = 0 then 0
  else if x < a + 1 then
    gammaPSeriesGo a x 99 1 (1 / a) (1 / a) *
      Real.exp (-x + a * Real.log x - logGamma a)
  else 1 - regularizedGammaQ a x

/-- `chiSquaredCDF` from `statistics.ts`. -/
noncomputable def chiSquaredCDF (x df : ℝ) : ℝ :=
  if x ≤ 0 ∨ df ≤ 0 then 0 else regularizedGammaP (df / 2) (x / 2)

/-- Lan-DeMets alpha-spending function, O'Brien-Fleming type
(`lanDeMetsAlphaSpending` in `statistics.ts`). -/
noncomputable def lanDeMetsAlphaSpending (t alpha : ℝ) : ℝ :=
  if t ≤ 0 then 0
  else if 1 ≤ t then alpha
  else
    let zAlpha := normalQuantile (1 - alpha / 2);
    2 * (1 - normalCDF (zAlpha / Real.sqrt t))

/-- Lan-DeMets beta-spending function (`lanDeMetsBetaSpending`). -/
noncomputable def lanDeMetsBetaSpending (t beta : ℝ) : ℝ :=
  if t ≤ 0 then 0
  else if 1 ≤ t then beta
  else
    let zBeta := normalQuantile (1 - beta / 2);
    2 * (1 - normalCDF (zBeta / Real.sqrt t))

/-- O'Brien-Fleming monitoring boundary via Lan-DeMets spending
(`computeMonitoringBoundary` in `statistics.ts`). -/
noncomputable def computeMonitoringBoundary (informationFraction alpha : ℝ) : ℝ :=
  if informationFraction ≤ 0 then 10
  else if 1.5 ≤ informationFraction then normalQuantile (1 - alpha / 2)
  else normalQuantile (1 - alpha / 2) / Real.sqrt informationFraction

/-- Futility boundary via beta-spending (`computeFutilityBoundary` in
`statistics.ts`).  The source's parameter type admits only `'none'` and
`'obrien-fleming'`; here the full enumeration is accepted and anything other
than `none` follows the O'Brien-Fleming branch, exactly as the source's
`if (boundaryType === 'none')` test does. -/
noncomputable def computeFutilityBoundary (informationFraction beta : ℝ)
    (boundaryType : FutilityBoundaryType := .obrienFleming) : ℝ :=
  if boundaryType = .none then 0
  else if informationFraction ≤ 0 then 0
  else if 1 ≤ informationFraction then normalQuantile beta
  else
    let zBeta := normalQuantile (1 - beta / 2);
    let rawBoundary := zBeta / Real.sqrt informationFraction;
    min (rawBoundary * 0.5) (normalQuantile (1 - beta))

/-- Per-study effect estimate (`or`, `se`, `weight`), from
`calculateStudyOR`. -/
structure StudyEffect where
  or : ℝ
  se : ℝ
  weight : ℝ

/-- `calculateStudyOR` from `statistics.ts`: conditional continuity
correction (0.5 added to all four cells exactly when some cell is zero),
then `OR = ad/(bc)`, `SE = √(1/a+1/b+1/c+1/d)`, `weight = 1/SE²`. -/
noncomputable def calculateStudyOR (study : Study) : StudyEffect :=
  let a : ℝ := study.eventsTrt;
  let b : ℝ := (study.totalTrt : ℝ) - study.eventsTrt;
  let c : ℝ := study.eventsCtrl;
  let d : ℝ := (study.totalCtrl : ℝ) - study.eventsCtrl;
  let hasZeroCell := a = 0 ∨ b = 0 ∨ c = 0 ∨ d = 0;
  let a := if hasZeroCell then a + 0.5 else a;
  let b := if hasZeroCell then b + 0.5 else b;
  let c := if hasZeroCell then c + 0.5 else c;
  let d := if hasZeroCell then d + 0.5 else d;
  let se := Real.sqrt (1 / a + 1 / b + 1 / c + 1 / d);
  { or := (a * d) / (b * c)
    se := se
    weight := 1 / (se * se) }

/-- Mantel-Haenszel pooled effect; `se = none` models the IEEE `Infinity`
standard error of the source. -/
structure PooledEffect where
  or : ℝ
  se : Option ℝ

/-- Accumulator of the `forEach` loop in `calculatePooledOR`:
`(R, S, ΣPR, Σ(PS+QR), ΣQS)`. -/
structure MHAcc where
  R : ℝ
  S : ℝ
  sumPR : ℝ
  sumPSQR : ℝ
  sumQS : ℝ

/-- One iteration of the `forEach` loop in `calculatePooledOR` (guarded by
`n > 0`, as in the source). -/
noncomputable def mhStep (acc : MHAcc) (study : Study) : MHAcc :=
  let a : ℝ := study.eventsTrt;
  let b : ℝ := (study.totalTrt : ℝ) - a;
  let c : ℝ := study.eventsCtrl;
  let d : ℝ := (study.totalCtrl : ℝ) - c;
  let n : ℝ := ((study.totalTrt + study.totalCtrl : ℕ) : ℝ);
  if 0 < n then
    let Ri := a * d / n;
    let Si := b * c / n;
    let Pi := (a + d) / n;
    let Qi := (b + c) / n;
    { R := acc.R + Ri
      S := acc.S + Si
      sumPR := acc.sumPR + Pi * Ri
      sumPSQR := acc.sumPSQR + (Pi * Si + Qi * Ri)
      sumQS := acc.sumQS + Qi * Si }
  else acc

/-- The double-zero filter of `calculatePooledOR`. -/
def validStudies (studies : List Study) : List Study :=
  studies.filter fun study => !(study.eventsTrt == 0 && study.eventsCtrl == 0)

/-- `calculatePooledOR` from `statistics.ts`: Mantel-Haenszel pooling with
Robins-Breslow-Greenland variance over the non-double-zero studies, raw
(uncorrected) counts.  An infinite variance/SE is modelled as `se = none`. -/
noncomputable def calculatePooledOR (studies : List Study) : PooledEffect :=
  let valid := validStudies studies;
  if valid.length = 0 then { or := 1, se := Option.none }
  else
    let acc := valid.foldl mhStep ⟨0, 0, 0, 0, 0⟩;
    let or := if 0 < acc.S then acc.R / acc.S else 1;
    if 0 < acc.R ∧ 0 < acc.S then
      { or := or
        se := some (Real.sqrt (acc.sumPR / (2 * acc.R * acc.R) +
            acc.sumPSQR / (2 * acc.R * acc.S) +
            acc.sumQS / (2 * acc.S * acc.S))) }
    else { or := or, se := Option.none }

/-- Heterogeneity statistics record (`calculateHeterogeneity`'s result). -/
structure HeterogeneityStats where
  q : ℝ
  i2 : ℝ
  tau2 : ℝ
  pValue : ℝ

/-- Accumulator of the `forEach` loop in `calculateHeterogeneity`:
`(q, Σweight, Σweight²)`. -/
noncomputable def hetStep (logPooledOR : ℝ) (acc : ℝ × ℝ × ℝ) (study : Study) :
    ℝ × ℝ × ℝ :=
  let e := calculateStudyOR study;
  let logOR := Real.log e.or;
  let weight := 1 / (e.se * e.se);
  (acc.1 + weight * (logOR - logPooledOR) ^ 2, acc.2.1 + weight,
    acc.2.2 + weight * weight)

/-- `calculateHeterogeneity` from `statistics.ts`: Q, I², τ²
(DerSimonian-Laird) and the chi-squared p-value; the degenerate answer
`(0, 0, 0, 1)` for fewer than two studies. -/
noncomputable def calculateHeterogeneity (studies : List Study) :
    HeterogeneityStats :=
  if studies.length < 2 then { q := 0, i2 := 0, tau2 := 0, pValue := 1 }
  else
    let pooled := calculatePooledOR studies;
    let logPooledOR := Real.log pooled.or;
    let acc := studies.foldl (hetStep logPooledOR) (0, 0, 0);
    let q := acc.1;
    let sumWeights := acc.2.1;
    let sumWeightsSquared := acc.2.2;
    let df := (studies.length : ℝ) - 1;
    let c := sumWeights - sumWeightsSquared / sumWeights;
    { q := q
      tau2 := max 0 ((q - df) / c)
      i2 := max 0 (min 100 ((q - df) / q * 100))
      pValue := 1 - chiSquaredCDF q df }

/-- `calculateRIS` from `statistics.ts`: required information size for the
anticipated odds ratio, with the `100000` sentinel for degenerate rates or a
vanishing log-odds-ratio. -/
noncomputable def calculateRIS (params : TSAParams) : ℝ :=
  let zAlpha := normalQuantile (1 - params.alpha / 2);
  let zBeta := normalQuantile (1 - params.beta);
  let p0 := params.controlRate;
  let p1 := params.controlRate * (1 - params.effectSize / 100);
  if p0 ≤ 0 ∨ 1 ≤ p0 ∨ p1 ≤ 0 ∨ 1 ≤ p1 then 100000
  else
    let odds0 := p0 / (1 - p0);
    let odds1 := p1 / (1 - p1);
    let anticipatedOR := odds1 / odds0;
    let logOR := Real.log anticipatedOR;
    if |logOR| < 0.001 then 100000
    else
      let varComponent := 1 / (p1 * (1 - p1)) + 1 / (p0 * (1 - p0));
      let nPerArm := (zAlpha + zBeta) ^ 2 * varComponent / logOR ^ 2;
      ((⌈2 * nPerArm * params.heterogeneityCorrection⌉ : ℤ) : ℝ)

/-- One `cumulativeData` record of the driver (`CumulativeDataPoint` in
`types.ts`); only the engine-computed numeric fields and the label. -/
structure CumulativeDataPoint where
  study : String
  patients : ℕ
  informationFraction : ℝ
  zStatistic : ℝ
  monitoringBoundary : ℝ
  futilityBoundary : ℝ
  pooledOR : ℝ
  ci95Lower : ℝ
  ci95Upper : ℝ
  alphaSpent : ℝ
  betaSpent : ℝ

/-- All-zero record used only as the default of `List.getLastD` (the source
indexes `cumulativeData[length - 1]` of a list it knows is non-empty). -/
def emptyRecord : CumulativeDataPoint :=
  { study := "", patients := 0, informationFraction := 0, zStatistic := 0
    monitoringBoundary := 0, futilityBoundary := 0, pooledOR := 0
    ci95Lower := 0, ci95Upper := 0, alphaSpent := 0, betaSpent := 0 }

/-- Interpretation tag (`TSAInterpretation.type` in `types.ts`); the title and
message strings are presentation-only and not modelled. -/
inductive InterpretationType where
  | conclusiveBenefit
  | conclusiveHarm
  | futility
  | inconclusive
deriving DecidableEq, Repr

/-- Result record of the driver (`TSAResults` in `types.ts`). -/
structure TSAResults where
  ris : ℝ
  totalPatients : ℕ
  informationFraction : ℝ
  pooledOR : ℝ
  ci95Lower : ℝ
  ci95Upper : ℝ
  finalZ : ℝ
  cumulativeData : List CumulativeDataPoint
  interpretation : InterpretationType
  heterogeneity : HeterogeneityStats

/-- Builds the cumulative record of one driver step: `cumStudies` is the
prefix `studies.slice(0, i + 1)`, `cumN` the running patient count, `s` the
study added at this step. -/
noncomputable def mkRecord (params : TSAParams) (ris : ℝ)
    (cumStudies : List Study) (cumN : ℕ) (s : Study) : CumulativeDataPoint :=
  let pooled := calculatePooledOR cumStudies;
  let zStat := (match pooled.se with
    | some se => if 0 < se then Real.log pooled.or / se else 0
    | Option.none => 0);
  let informationFraction := (cumN : ℝ) / ris;
  { study := s.name ++ " (" ++ toString s.year ++ ")"
    patients := cumN
    informationFraction := informationFraction
    zStatistic := zStat
    monitoringBoundary := computeMonitoringBoundary informationFraction
        params.alpha
    futilityBoundary := computeFutilityBoundary informationFraction params.beta
    pooledOR := pooled.or
    ci95Lower := (match pooled.se with
      | some se => Real.exp (Real.log pooled.or - 1.96 * se)
      | Option.none => 0)
    ci95Upper := (match pooled.se with
      | some se => Real.exp (Real.log pooled.or + 1.96 * se)
      | Option.none => jsPosInf)
    alphaSpent := lanDeMetsAlphaSpending informationFraction params.alpha
    betaSpent := lanDeMetsBetaSpending informationFraction params.beta }

/-- The driver's `for` loop: `done` is the list of already-processed studies
(in order) and `cumN` their running patient total; each remaining study is
appended to the prefix and produces one record. -/
noncomputable def tsaTraceGo (params : TSAParams) (ris : ℝ) :
    List Study → ℕ → List Study → List CumulativeDataPoint
  | _, _, [] => []
  | done, cumN, s :: rest =>
      let done' := done ++ [s];
      let cumN' := cumN + (s.totalTrt + s.totalCtrl);
      mkRecord params ris done' cumN' s ::
        tsaTraceGo params ris done' cumN' rest

/-- `calculateTSA` from `statistics.ts`: the sequential driver.  Returns
`none` exactly on an empty study list; otherwise builds one cumulative record
per study and derives the interpretation tag from the final record. -/
noncomputable def calculateTSA (studies : List Study) (params : TSAParams) :
    Option TSAResults :=
  if studies.length = 0 then Option.none
  else
    let heterogeneity := calculateHeterogeneity studies;
    let ris := calculateRIS params;
    let cumulativeData := tsaTraceGo params ris [] 0 studies;
    let last := cumulativeData.getLastD emptyRecord;
    let interp : InterpretationType :=
      if last.monitoringBoundary < |last.zStatistic| then
        if 0 < last.zStatistic then .conclusiveBenefit else .conclusiveHarm
      else if 0 < last.futilityBoundary ∧
          |last.zStatistic| < last.futilityBoundary then .futility
      else .inconclusive;
    some
      { ris := ris
        totalPatients := last.patients
        informationFraction := last.informationFraction
        pooledOR := last.pooledOR
        ci95Lower := last.ci95Lower
        ci95Upper := last.ci95Upper
        finalZ := last.zStatistic
        cumulativeData := cumulativeData
        interpretation := interp
        heterogeneity := heterogeneity }

/-!  ## Structural lemmas about the driver  -/

/-- The driver loop produces exactly one record per remaining study. -/
lemma tsaTraceGo_length (params : TSAParams) (ris : ℝ) :
    ∀ (l done : List Study) (cumN : ℕ),
      (tsaTraceGo params ris done cumN l).length = l.length
  | [], _, _ => rfl
  | s :: rest, done, cumN => by
      simp [tsaTraceGo, tsaTraceGo_length params ris rest]

/-- Restatement of the required-information-size computation following the
wording of the specification (§4.6): sentinel `100000` for a control or
treatment rate outside `(0,1)` or a log-odds-ratio smaller than `0.001` in
absolute value, otherwise `⌈2·nPerArm·h⌉` with the anticipated odds ratio
written as the ratio of the two odds. -/
noncomputable def calculateRISSpec (params : TSAParams) : ℝ :=
  let p0 := params.controlRate;
  let p1 := params.controlRate * (1 - params.effectSize / 100);
  if p0 ≤ 0 ∨ 1 ≤ p0 ∨ p1 ≤ 0 ∨ 1 ≤ p1 then 100000
  else
    let anticipatedOR := (p1 / (1 - p1)) / (p0 / (1 - p0));
    if |Real.log anticipatedOR| < 0.001 then 100000
    else
      let varComponent := 1 / (p1 * (1 - p1)) + 1 / (p0 * (1 - p0));
      let nPerArm :=
        (normalQuantile (1 - params.alpha / 2) +
          normalQuantile (1 - params.beta)) ^ 2 * varComponent /
          Real.log anticipatedOR ^ 2;
      ((⌈2 * nPerArm * params.heterogeneityCorrection⌉ : ℤ) : ℝ)

/-!  ## Positivity of the Acklam polynomials

`acklamCentralNum` and `acklamCentralDen` are strictly positive on
`r ∈ (-∞, 0.2263380625]`, where `0.2263380625 = (0.97575 - 0.5)²` is the
largest value of `r = q²` reachable in the central branch of
`normalQuantile`; the Taylor expansions of both polynomials around that right
endpoint have positive coefficients only, which `nlinarith` turns into a
certificate.  On the tail branch the substitution `q = 2 + v`, `v ≥ 0`
similarly certifies `acklamTailNum < 0` and `acklamTailDen > 0`. -/

lemma acklamCentralNum_pos (r : ℝ) (h : r ≤ 0.2263380625) :
    0 < acklamCentralNum r := by
  have hu : (0 : ℝ) ≤ 0.2263380625 - r := by linarith
  unfold acklamCentralNum
  nlinarith [hu, mul_nonneg hu hu, mul_nonneg (mul_nonneg hu hu) hu,
    mul_nonneg (mul_nonneg (mul_nonneg hu hu) hu) hu,
    mul_nonneg (mul_nonneg (mul_nonneg (mul_nonneg hu hu) hu) hu) hu]

lemma acklamCentralDen_pos (r : ℝ) (h : r ≤ 0.2263380625) :
    0 < acklamCentralDen r := by
  have hu : (0 : ℝ) ≤ 0.2263380625 - r := by linarith
  unfold acklamCentralDen
  nlinarith [hu, mul_nonneg hu hu, mul_nonneg (mul_nonneg hu hu) hu,
    mul_nonneg (mul_nonneg (mul_nonneg hu hu) hu) hu,
    mul_nonneg (mul_nonneg (mul_nonneg (mul_nonneg hu hu) hu) hu) hu]

lemma acklamTailNum_neg (q : ℝ) (h : 2 ≤ q) : acklamTailNum q < 0 := by
  have hv : (0 : ℝ) ≤ q - 2 := by linarith
  unfold acklamTailNum
  nlinarith [hv, mul_nonneg hv hv, mul_nonneg (mul_nonneg hv hv) hv,
    mul_nonneg (mul_nonneg (mul_nonneg hv hv) hv) hv,
    mul_nonneg (mul_nonneg (mul_nonneg (mul_nonneg hv hv) hv) hv) hv]

lemma acklamTailDen_pos (q : ℝ) (h : 0 ≤ q) : 0 < acklamTailDen q := by
  unfold acklamTailDen
  nlinarith [h, mul_nonneg h h, mul_nonneg (mul_nonneg h h) h,
    mul_nonneg (mul_nonneg (mul_nonneg h h) h) h]

/-- The quantile approximation is positive on `(1/2, 1)`: positivity of the
central rational function for `p ≤ 0.97575`, and positivity of the tail
value `-num/den` for larger `p`, where the tail argument
`q = √(-2·ln(1-p))` exceeds `2` because `1 - p < 0.02425 < e⁻²`. -/
lemma normalQuantile_pos (p : ℝ) (h1 : 1 / 2 < p) (h2 : p < 1) :
    0 < normalQuantile p := by
  rw [normalQuantile, if_neg (by linarith : ¬ p ≤ 0),
    if_neg (by linarith : ¬ (1 : ℝ) ≤ p),
    if_neg (by intro hp; rw [hp] at h1; norm_num at h1),
    if_neg (not_lt.2 (by linarith : (0.02425 : ℝ) ≤ p))]
  by_cases hc : p ≤ 1 - 0.02425
  · rw [if_pos hc]
    have hq : 0 < p - 0.5 := by norm_num; linarith
    have hr : (p - 0.5) * (p - 0.5) ≤ 0.2263380625 := by nlinarith
    exact div_pos (mul_pos (acklamCentralNum_pos _ hr) hq)
      (acklamCentralDen_pos _ hr)
  · rw [if_neg hc]
    have h1p : 0 < 1 - p := by linarith
    have hlt : 1 - p < 0.02425 := by push_neg at hc; linarith
    have hexp : Real.exp 2 < 8 := by
      have he1 : Real.exp 1 < 2.7182818286 := Real.exp_one_lt_d9
      have h0 : (0 : ℝ) < Real.exp 1 := Real.exp_pos 1
      calc Real.exp 2 = Real.exp 1 * Real.exp 1 := by
            rw [← Real.exp_add]; norm_num
        _ < 8 := by nlinarith
    have hlog : Real.log (1 - p) < -2 := by
      rw [Real.log_lt_iff_lt_exp h1p]
      calc (1 : ℝ) - p < 0.02425 := hlt
        _ < 1 / 8 := by norm_num
        _ < Real.exp (-2) := by
            rw [Real.exp_neg]
            rw [lt_inv_comm₀ (by norm_num) (Real.exp_pos 2)]
            simpa using hexp
    set q := Real.sqrt (-2 * Real.log (1 - p)) with hqdef
    have hq2 : 2 ≤ q := by
      have h4 : (4 : ℝ) ≤ -2 * Real.log (1 - p) := by linarith
      calc (2 : ℝ) = Real.sqrt 4 := by
            rw [show (4 : ℝ) = 2 ^ 2 by norm_num,
              Real.sqrt_sq (by norm_num : (0 : ℝ) ≤ 2)]
        _ ≤ q := Real.sqrt_le_sqrt h4
    have hnum := acklamTailNum_neg q hq2
    have hden := acklamTailDen_pos q (by linarith)
    exact div_pos (by linarith : (0 : ℝ) < -acklamTailNum q) hden

/-!  ## Monotonicity of the A&S normal-CDF approximation

For `x ≥ 0` the approximation is `Φ(x) = 1 - P(t(x))·exp(-x²/2)/2` with
`t(x) = 1/(1 + p·x/√2)` and `P(t) = asErfPoly t · t`.  `P` is non-negative
and non-decreasing on `[0,1]` (via the divided-difference polynomial
`asErfBracket`), `t(x)` is positive, at most `1` and antitone, and the
Gaussian factor is positive and strictly antitone, so `Φ` is strictly
increasing on `(0, ∞)` — the key fact behind the monotonicity of the
Lan-DeMets spending function and of the monitoring boundary. -/

lemma asErfPoly_pos (t : ℝ) (h0 : 0 ≤ t) (h1 : t ≤ 1) : 0 < asErfPoly t := by
  unfold asErfPoly
  nlinarith [sq_nonneg (t - 0.12), sq_nonneg t, sq_nonneg (t - 1),
    mul_nonneg h0 h0, mul_nonneg (mul_nonneg h0 h0) h0,
    mul_nonneg (mul_nonneg (mul_nonneg h0 h0) h0) h0,
    mul_nonneg (sub_nonneg.2 h1) h0, sq_nonneg (t * t - 0.12),
    mul_nonneg (mul_nonneg (sub_nonneg.2 h1) h0) h0,
    mul_nonneg (mul_nonneg (mul_nonneg (sub_nonneg.2 h1) h0) h0) h0]

/-- Divided difference `(P(t2) - P(t1))/(t2 - t1)` of `P(t) = asErfPoly t · t`
as a polynomial. -/
def asErfBracket (t1 t2 : ℝ) : ℝ :=
  0.254829592 + (-0.284496736) * (t1 + t2) +
    1.421413741 * (t1 ^ 2 + t1 * t2 + t2 ^ 2) +
    (-1.453152027) * (t1 ^ 3 + t1 ^ 2 * t2 + t1 * t2 ^ 2 + t2 ^ 3) +
    1.061405429 * (t1 ^ 4 + t1 ^ 3 * t2 + t1 ^ 2 * t2 ^ 2 + t1 * t2 ^ 3 +
      t2 ^ 4)

lemma asErfBracket_nonneg (t1 t2 : ℝ) (h0 : 0 ≤ t1) (h12 : t1 ≤ t2)
    (h21 : t2 ≤ 1) : 0 ≤ asErfBracket t1 t2 := by
  have h02 : 0 ≤ t2 := le_trans h0 h12
  have h11 : t1 ≤ 1 := le_trans h12 h21
  unfold asErfBracket
  nlinarith [sq_nonneg (t1 - 0.1), sq_nonneg (t2 - 0.1),
    sq_nonneg (t1 + t2 - 0.2), sq_nonneg (t1 - t2),
    mul_nonneg h0 h02, mul_nonneg (mul_nonneg h0 h02) (mul_nonneg h0 h02),
    mul_nonneg (sub_nonneg.2 h11) (sub_nonneg.2 h21),
    mul_nonneg (mul_nonneg h0 h0) (sub_nonneg.2 h21),
    mul_nonneg (mul_nonneg h02 h02) (sub_nonneg.2 h11),
    mul_nonneg (mul_nonneg (sub_nonneg.2 h11) h0) h0,
    mul_nonneg (mul_nonneg (sub_nonneg.2 h21) h02) h02,
    sq_nonneg (t1 * t2 - 0.1), mul_nonneg h0 h02]

/-- `P(t) = asErfPoly t · t` is monotone on `[0, 1]`. -/
lemma asErfP_mono (t1 t2 : ℝ) (h0 : 0 ≤ t1) (h12 : t1 ≤ t2) (h21 : t2 ≤ 1) :
    asErfPoly t1 * t1 ≤ asErfPoly t2 * t2 := by
  have key : asErfPoly t2 * t2 - asErfPoly t1 * t1 =
      (t2 - t1) * asErfBracket t1 t2 := by
    unfold asErfPoly asErfBracket; ring
  nlinarith [mul_nonneg (sub_nonneg.2 h12) (asErfBracket_nonneg t1 t2 h0 h12 h21)]

/-- The Gaussian-weighted polynomial term of the approximation, as a function
of `u = |x|/√2`. -/
noncomputable def asErfTerm (u : ℝ) : ℝ :=
  asErfPoly (1 / (1 + 0.3275911 * u)) * (1 / (1 + 0.3275911 * u)) *
    Real.exp (-u * u)

lemma asErfTerm_pos (u : ℝ) (hu : 0 ≤ u) : 0 < asErfTerm u := by
  have hden : (0 : ℝ) < 1 + 0.3275911 * u := by nlinarith
  have ht0 : (0 : ℝ) < 1 / (1 + 0.3275911 * u) := by positivity
  have ht1 : 1 / (1 + 0.3275911 * u) ≤ 1 := by
    rw [div_le_one hden]; nlinarith
  exact mul_pos (mul_pos (asErfPoly_pos _ ht0.le ht1) ht0) (Real.exp_pos _)

/-- `asErfTerm` is strictly decreasing on `[0, ∞)`. -/
lemma asErfTerm_strictAnti (u1 u2 : ℝ) (h0 : 0 ≤ u1) (h12 : u1 < u2) :
    asErfTerm u2 < asErfTerm u1 := by
  have hd1 : (0 : ℝ) < 1 + 0.3275911 * u1 := by nlinarith
  have hd2 : (0 : ℝ) < 1 + 0.3275911 * u2 := by nlinarith
  have ht2pos : (0 : ℝ) < 1 / (1 + 0.3275911 * u2) := by positivity
  have htle : 1 / (1 + 0.3275911 * u2) ≤ 1 / (1 + 0.3275911 * u1) := by
    apply one_div_le_one_div_of_le hd1
    nlinarith
  have ht1le : 1 / (1 + 0.3275911 * u1) ≤ 1 := by
    rw [div_le_one hd1]; nlinarith
  have hP : asErfPoly (1 / (1 + 0.3275911 * u2)) * (1 / (1 + 0.3275911 * u2)) ≤
      asErfPoly (1 / (1 + 0.3275911 * u1)) * (1 / (1 + 0.3275911 * u1)) :=
    asErfP_mono _ _ ht2pos.le htle ht1le
  have hPpos : 0 < asErfPoly (1 / (1 + 0.3275911 * u1)) *
      (1 / (1 + 0.3275911 * u1)) := by
    have ht1pos : (0 : ℝ) < 1 / (1 + 0.3275911 * u1) := by positivity
    exact mul_pos (asErfPoly_pos _ ht1pos.le ht1le) ht1pos
  have hexp : Real.exp (-u2 * u2) < Real.exp (-u1 * u1) := by
    apply Real.exp_lt_exp.2
    nlinarith
  calc asErfTerm u2 ≤ asErfPoly (1 / (1 + 0.3275911 * u1)) *
        (1 / (1 + 0.3275911 * u1)) * Real.exp (-u2 * u2) := by
        unfold asErfTerm
        exact mul_le_mul_of_nonneg_right hP (Real.exp_pos _).le
    _ < asErfTerm u1 := by
        unfold asErfTerm
        exact (mul_lt_mul_left hPpos).2 hexp

/-- For non-negative arguments the CDF approximation is
`1 - asErfTerm (x/√2) / 2`. -/
lemma normalCDF_of_nonneg (x : ℝ) (hx : 0 ≤ x) :
    normalCDF x = 1 - asErfTerm (x / Real.sqrt 2) / 2 := by
  rw [normalCDF, asErfTerm]
  rw [if_neg (not_lt.2 hx), abs_of_nonneg hx]
  ring

/-- The CDF approximation is at most `1` on `[0, ∞)`. -/
lemma normalCDF_le_one (x : ℝ) (hx : 0 ≤ x) : normalCDF x ≤ 1 := by
  rw [normalCDF_of_nonneg x hx]
  have := asErfTerm_pos (x / Real.sqrt 2)
    (div_nonneg hx (Real.sqrt_nonneg 2))
  linarith

/-- The CDF approximation is strictly increasing on `(0, ∞)`. -/
lemma normalCDF_lt_of_pos (x1 x2 : ℝ) (h0 : 0 ≤ x1) (h12 : x1 < x2) :
    normalCDF x1 < normalCDF x2 := by
  rw [normalCDF_of_nonneg x1 h0, normalCDF_of_nonneg x2 (by linarith)]
  have hs : (0 : ℝ) < Real.sqrt 2 := by positivity
  have := asErfTerm_strictAnti (x1 / Real.sqrt 2) (x2 / Real.sqrt 2)
    (div_nonneg h0 hs.le) ((div_lt_div_iff_of_pos_right hs).2 h12)
  linarith

/-!  ## Spending-function and boundary monotonicity  -/

/-- On `(0, 1)` the spending function takes its closed form. -/
lemma lanDeMetsAlphaSpending_eq (t alpha : ℝ) (h0 : 0 < t) (h1 : t < 1) :
    lanDeMetsAlphaSpending t alpha =
      2 * (1 - normalCDF (normalQuantile (1 - alpha / 2) / Real.sqrt t)) := by
  rw [lanDeMetsAlphaSpending, if_neg (not_le.2 h0), if_neg (not_le.2 h1)]

/-- The quantile argument `z_{α/2}/√t` of the spending function is positive
for `α ∈ (0, 1)` and `t ∈ (0, 1)`. -/
lemma spendArg_pos (t alpha : ℝ) (ha0 : 0 < alpha) (ha1 : alpha < 1)
    (h0 : 0 < t) :
    0 < normalQuantile (1 - alpha / 2) / Real.sqrt t := by
  have hz : 0 < normalQuantile (1 - alpha / 2) :=
    normalQuantile_pos _ (by linarith) (by linarith)
  exact div_pos hz (Real.sqrt_pos.2 h0)

/-- The spending function is non-negative for `α ∈ (0, 1)` (any `t`). -/
lemma lanDeMetsAlphaSpending_nonneg (t alpha : ℝ) (ha0 : 0 < alpha)
    (ha1 : alpha < 1) : 0 ≤ lanDeMetsAlphaSpending t alpha := by
  rw [lanDeMetsAlphaSpending]
  split_ifs with h1 h2
  · exact le_refl 0
  · exact ha0.le
  · push_neg at h1 h2
    have harg := spendArg_pos t alpha ha0 ha1 h1
    have := normalCDF_le_one _ harg.le
    linarith

/-- The spending function is strictly increasing on `(0, 1)` for
`α ∈ (0, 1)`. -/
lemma lanDeMetsAlphaSpending_strictMono (t1 t2 alpha : ℝ) (ha0 : 0 < alpha)
    (ha1 : alpha < 1) (h0 : 0 < t1) (h12 : t1 < t2) (h21 : t2 < 1) :
    lanDeMetsAlphaSpending t1 alpha < lanDeMetsAlphaSpending t2 alpha := by
  rw [lanDeMetsAlphaSpending_eq t1 alpha h0 (by linarith),
    lanDeMetsAlphaSpending_eq t2 alpha (by linarith) h21]
  have hz : 0 < normalQuantile (1 - alpha / 2) :=
    normalQuantile_pos _ (by linarith) (by linarith)
  have hs1 : 0 < Real.sqrt t1 := Real.sqrt_pos.2 h0
  have hs2 : 0 < Real.sqrt t2 := Real.sqrt_pos.2 (by linarith)
  have hss : Real.sqrt t1 < Real.sqrt t2 :=
    Real.sqrt_lt_sqrt h0.le h12
  have harg : normalQuantile (1 - alpha / 2) / Real.sqrt t2 <
      normalQuantile (1 - alpha / 2) / Real.sqrt t1 :=
    div_lt_div_of_pos_left hz hs1 hss
  have hcdf := normalCDF_lt_of_pos _ _
    (spendArg_pos t2 alpha ha0 ha1 (by linarith)).le harg
  linarith

/-- The spending function is (weakly) monotone for `t₁ ≤ t₂ < 1`,
`α ∈ (0, 1)`. -/
lemma lanDeMetsAlphaSpending_mono (t1 t2 alpha : ℝ) (ha0 : 0 < alpha)
    (ha1 : alpha < 1) (h12 : t1 ≤ t2) (h21 : t2 < 1) :
    lanDeMetsAlphaSpending t1 alpha ≤ lanDeMetsAlphaSpending t2 alpha := by
  rcases eq_or_lt_of_le h12 with rfl | hlt
  · exact le_refl _
  rcases le_or_lt t1 0 with ht1 | ht1
  · rw [lanDeMetsAlphaSpending, if_pos ht1]
    exact lanDeMetsAlphaSpending_nonneg t2 alpha ha0 ha1
  · exact (lanDeMetsAlphaSpending_strictMono t1 t2 alpha ha0 ha1 ht1 hlt
      h21).le

/-- The monitoring boundary is (weakly) antitone in `t` on `(0, 3/2)` for
`α ∈ (0, 1)`. -/
lemma computeMonitoringBoundary_anti (t1 t2 alpha : ℝ) (ha0 : 0 < alpha)
    (ha1 : alpha < 1) (h0 : 0 < t1) (h12 : t1 ≤ t2) (h21 : t2 < 1.5) :
    computeMonitoringBoundary t2 alpha ≤ computeMonitoringBoundary t1 alpha := by
  have h02 : 0 < t2 := lt_of_lt_of_le h0 h12
  rw [computeMonitoringBoundary, computeMonitoringBoundary,
    if_neg (not_le.2 h0), if_neg (not_le.2 h02),
    if_neg (not_le.2 (lt_of_le_of_lt h12 h21)), if_neg (not_le.2 h21)]
  have hz : 0 < normalQuantile (1 - alpha / 2) :=
    normalQuantile_pos _ (by linarith) (by linarith)
  have hs1 : 0 < Real.sqrt t1 := Real.sqrt_pos.2 h0
  exact div_le_div_of_nonneg_left hz.le hs1 (Real.sqrt_le_sqrt h12) |>.trans
    (le_refl _)

/-- Claim C7: for `α ∈ (0, 0.5)` the Lan-DeMets alpha-spending function is
`0` for `t ≤ 0`, exactly `α` for `t ≥ 1`, equals
`2·(1 - Φ(Φ⁻¹(1 - α/2)/√t))` on `(0, 1)`, and is strictly increasing in `t`
on `(0, 1)`. -/
theorem claim_C7 (alpha : ℝ) (ha0 : 0 < alpha) (ha1 : alpha < 1 / 2) :
    (∀ t, t ≤ 0 → lanDeMetsAlphaSpending t alpha = 0) ∧
    (∀ t, 1 ≤ t → lanDeMetsAlphaSpending t alpha = alpha) ∧
    (∀ t, 0 < t → t < 1 → lanDeMetsAlphaSpending t alpha =
      2 * (1 - normalCDF (normalQuantile (1 - alpha / 2) / Real.sqrt t))) ∧
    (∀ t1 t2, 0 < t1 → t1 < t2 → t2 < 1 →
      lanDeMetsAlphaSpending t1 alpha < lanDeMetsAlphaSpending t2 alpha) := by
  refine ⟨?_, ?_, ?_, ?_⟩
  · intro t ht
    rw [lanDeMetsAlphaSpending, if_pos ht]
  · intro t ht
    rw [lanDeMetsAlphaSpending, if_neg (by linarith), if_pos ht]
  · intro t h0 h1
    exact lanDeMetsAlphaSpending_eq t alpha h0 h1
  · intro t1 t2 h0 h12 h21
    exact lanDeMetsAlphaSpending_strictMono t1 t2 alpha ha0 (by linarith)
      h0 h12 h21

/-- Witness for claim C7 at `α = 0.05`, evaluating the clauses at concrete
information fractions. -/
theorem claim_C7_witness :
    (0 : ℝ) < 1 / 20 ∧ (1 / 20 : ℝ) < 1 / 2 ∧
    lanDeMetsAlphaSpending (-1) (1 / 20) = 0 ∧
    lanDeMetsAlphaSpending 1 (1 / 20) = 1 / 20 ∧
    lanDeMetsAlphaSpending (1 / 4) (1 / 20) =
      2 * (1 - normalCDF (normalQuantile (1 - (1 / 20) / 2) /
        Real.sqrt (1 / 4))) ∧
    lanDeMetsAlphaSpending (1 / 4) (1 / 20) <
      lanDeMetsAlphaSpending (1 / 2) (1 / 20) := by
  have h := claim_C7 (1 / 20) (by norm_num) (by norm_num)
  exact ⟨by norm_num, by norm_num, h.1 (-1) (by norm_num),
    h.2.1 1 (by norm_num), h.2.2.1 (1 / 4) (by norm_num) (by norm_num),
    h.2.2.2 (1 / 4) (1 / 2) (by norm_num) (by norm_num) (by norm_num)⟩

/-!  ## Concrete quantile evaluations  -/

/-- Closed form of `normalQuantile` on the central branch
`p ∈ (1/2, 0.97575]`. -/
lemma normalQuantile_central (p : ℝ) (h1 : 1 / 2 < p) (h2 : p ≤ 0.97575) :
    normalQuantile p =
      acklamCentralNum ((p - 0.5) * (p - 0.5)) * (p - 0.5) /
        acklamCentralDen ((p - 0.5) * (p - 0.5)) := by
  rw [normalQuantile, if_neg (by linarith : ¬ p ≤ 0),
    if_neg (by norm_num at h2 ⊢; linarith : ¬ (1 : ℝ) ≤ p),
    if_neg (by intro hp; rw [hp] at h1; norm_num at h1),
    if_neg (not_lt.2 (by linarith : (0.02425 : ℝ) ≤ p)),
    if_pos (by norm_num at h2 ⊢; linarith : p ≤ 1 - 0.02425)]

lemma nq_151_200_lt : normalQuantile (151 / 200) < 0.7 := by
  rw [normalQuantile_central (151 / 200) (by norm_num) (by norm_num)]
  rw [div_lt_iff₀ (acklamCentralDen_pos _ (by norm_num))]
  norm_num [acklamCentralNum, acklamCentralDen]

lemma nq_39_40_gt : (1.95 : ℝ) < normalQuantile (39 / 40) := by
  rw [normalQuantile_central (39 / 40) (by norm_num) (by norm_num)]
  rw [lt_div_iff₀ (acklamCentralDen_pos _ (by norm_num))]
  norm_num [acklamCentralNum, acklamCentralDen]

lemma nq_19_20_gt : (1 : ℝ) < normalQuantile (19 / 20) := by
  rw [normalQuantile_central (19 / 20) (by norm_num) (by norm_num)]
  rw [lt_div_iff₀ (acklamCentralDen_pos _ (by norm_num))]
  norm_num [acklamCentralNum, acklamCentralDen]

lemma nq_9_10_lt : normalQuantile (9 / 10) < 1.29 := by
  rw [normalQuantile_central (9 / 10) (by norm_num) (by norm_num)]
  rw [div_lt_iff₀ (acklamCentralDen_pos _ (by norm_num))]
  norm_num [acklamCentralNum, acklamCentralDen]

/-!  ## Claim C4: futility vs. monitoring boundary  -/

/-- Counterexample to claim C4 as stated: at `t = 0.9801`, `α = 0.49`,
`β = 0.05` — all inside the claimed ranges — the futility boundary
(`≈ 0.99`) is NOT smaller in magnitude than the monitoring boundary
(`≈ 0.70`): a large `α` makes the monitoring boundary small while a small
`β` keeps the futility wedge large. -/
theorem claim_C4_counterexample :
    (0 : ℝ) < 9801 / 10000 ∧ (9801 / 10000 : ℝ) < 1 ∧
    (0 : ℝ) < 49 / 100 ∧ (49 / 100 : ℝ) < 1 / 2 ∧
    (0 : ℝ) < 1 / 20 ∧ (1 / 20 : ℝ) < 1 / 2 ∧
    ¬ (|computeFutilityBoundary (9801 / 10000) (1 / 20) .obrienFleming| <
        computeMonitoringBoundary (9801 / 10000) (49 / 100)) := by
  refine ⟨by norm_num, by norm_num, by norm_num, by norm_num, by norm_num,
    by norm_num, ?_⟩
  have hsqrt : Real.sqrt (9801 / 10000) = 99 / 100 := by
    rw [show (9801 / 10000 : ℝ) = (99 / 100) ^ 2 by norm_num,
      Real.sqrt_sq (by norm_num : (0 : ℝ) ≤ 99 / 100)]
  rw [computeFutilityBoundary, if_neg (by decide :
      ¬ FutilityBoundaryType.obrienFleming = .none),
    if_neg (by norm_num : ¬ (9801 / 10000 : ℝ) ≤ 0),
    if_neg (by norm_num : ¬ (1 : ℝ) ≤ 9801 / 10000),
    computeMonitoringBoundary,
    if_neg (by norm_num : ¬ (9801 / 10000 : ℝ) ≤ 0),
    if_neg (by norm_num : ¬ (1.5 : ℝ) ≤ 9801 / 10000), hsqrt]
  have e1 : (1 : ℝ) - (1 / 20) / 2 = 39 / 40 := by norm_num
  have e2 : (1 : ℝ) - (1 / 20) = 19 / 20 := by norm_num
  have e3 : (1 : ℝ) - (49 / 100) / 2 = 151 / 200 := by norm_num
  rw [e1, e2, e3]
  have hzb := nq_39_40_gt
  have hz1b := nq_19_20_gt
  have hza := nq_151_200_lt
  have hza0 := normalQuantile_pos (151 / 200) (by norm_num) (by norm_num)
  rw [not_lt]
  have hfb : (39 / 40 : ℝ) ≤
      min (normalQuantile (39 / 40) / (99 / 100) * 0.5)
        (normalQuantile (19 / 20)) := by
    apply le_min
    · rw [div_mul_eq_mul_div, le_div_iff₀ (by norm_num : (0 : ℝ) < 99 / 100)]
      norm_num
      linarith
    · linarith
  calc normalQuantile (151 / 200) / (99 / 100) ≤ (7 / 10) / (99 / 100) := by
        apply div_le_div_of_nonneg_right ?_ (by norm_num)
        norm_num at hza ⊢
        linarith
    _ ≤ 39 / 40 := by norm_num
    _ ≤ min (normalQuantile (39 / 40) / (99 / 100) * 0.5)
        (normalQuantile (19 / 20)) := hfb
    _ ≤ |min (normalQuantile (39 / 40) / (99 / 100) * 0.5)
        (normalQuantile (19 / 20))| := le_abs_self _

/-- Claim C4, amended: the inequality additionally requires the design to
satisfy `Φ⁻¹(1-β/2)·0.5 < Φ⁻¹(1-α/2)` (true in every standard design where
`α ≤ β`, e.g. `α = 0.05`, `β = 0.2`; the counterexample shows it can fail
when `α` is much larger than `β`).  Under that proviso the O'Brien-Fleming
futility boundary is smaller in magnitude than the monitoring boundary for
every `t ∈ (0,1)`. -/
theorem claim_C4_amended (t alpha beta : ℝ) (ht0 : 0 < t) (ht1 : t < 1)
    (ha0 : 0 < alpha) (ha1 : alpha < 1 / 2) (hb0 : 0 < beta)
    (hb1 : beta < 1 / 2)
    (hkey : normalQuantile (1 - beta / 2) * 0.5 <
      normalQuantile (1 - alpha / 2)) :
    |computeFutilityBoundary t beta .obrienFleming| <
      computeMonitoringBoundary t alpha := by
  have hzb : 0 < normalQuantile (1 - beta / 2) :=
    normalQuantile_pos _ (by linarith) (by linarith)
  have hz1b : 0 < normalQuantile (1 - beta) :=
    normalQuantile_pos _ (by linarith) (by linarith)
  have hza : 0 < normalQuantile (1 - alpha / 2) :=
    normalQuantile_pos _ (by linarith) (by linarith)
  have hs : 0 < Real.sqrt t := Real.sqrt_pos.2 ht0
  rw [computeFutilityBoundary, if_neg (by decide :
      ¬ FutilityBoundaryType.obrienFleming = .none),
    if_neg (not_le.2 ht0), if_neg (not_le.2 ht1),
    computeMonitoringBoundary, if_neg (not_le.2 ht0),
    if_neg (not_le.2 (by linarith : t < 1.5))]
  have hfb0 : 0 ≤ min (normalQuantile (1 - beta / 2) / Real.sqrt t * 0.5)
      (normalQuantile (1 - beta)) :=
    le_min (by positivity) hz1b.le
  rw [abs_of_nonneg hfb0]
  calc min (normalQuantile (1 - beta / 2) / Real.sqrt t * 0.5)
        (normalQuantile (1 - beta)) ≤
      normalQuantile (1 - beta / 2) / Real.sqrt t * 0.5 := min_le_left _ _
    _ = normalQuantile (1 - beta / 2) * 0.5 / Real.sqrt t := by ring
    _ < normalQuantile (1 - alpha / 2) / Real.sqrt t :=
      (div_lt_div_iff_of_pos_right hs).2 hkey

/-- Witness for the amended claim C4 at `t = 1/2`, `α = 0.05`, `β = 0.2`. -/
theorem claim_C4_amended_witness :
    (0 : ℝ) < 1 / 2 ∧ (1 / 2 : ℝ) < 1 ∧ (0 : ℝ) < 1 / 20 ∧
    (1 / 20 : ℝ) < 1 / 2 ∧ (0 : ℝ) < 1 / 5 ∧ (1 / 5 : ℝ) < 1 / 2 ∧
    |computeFutilityBoundary (1 / 2) (1 / 5) .obrienFleming| <
      computeMonitoringBoundary (1 / 2) (1 / 20) := by
  refine ⟨by norm_num, by norm_num, by norm_num, by norm_num, by norm_num,
    by norm_num, ?_⟩
  apply claim_C4_amended (1 / 2) (1 / 20) (1 / 5) (by norm_num) (by norm_num)
    (by norm_num) (by norm_num) (by norm_num) (by norm_num)
  have h1 : (1 : ℝ) - (1 / 5) / 2 = 9 / 10 := by norm_num
  have h2 : (1 : ℝ) - (1 / 20) / 2 = 39 / 40 := by norm_num
  rw [h1, h2]
  have := nq_9_10_lt
  have := nq_39_40_gt
  norm_num at *
  linarith

/-- A concrete study used by several witnesses. -/
def witnessStudy : Study :=
  { name := "Study A", year := 2020, eventsTrt := 10, totalTrt := 50
    eventsCtrl := 20, totalCtrl := 50 }

/-- Concrete design parameters used by several witnesses
(α = 0.05, β = 0.20, control rate 0.15, RRR 35 %, correction 1.2). -/
noncomputable def witnessParams : TSAParams :=
  { alpha := 1 / 20, beta := 1 / 5, controlRate := 3 / 20, effectSize := 35
    heterogeneityCorrection := 6 / 5, futilityBoundaryType := some .obrienFleming
    useI2Adjustment := some false }

/-!  ## Claim C3: Mantel-Haenszel pooling

Specification-side sums over the retained studies (raw counts, no
continuity correction, no `n > 0` guard — for a degenerate study with
`n = 0` each summand is `0` by the division-by-zero convention, matching the
source's skip). -/

/-- Summand `a·d/n` of `R`. -/
noncomputable def mhTermR (s : Study) : ℝ :=
  (s.eventsTrt : ℝ) * ((s.totalCtrl : ℝ) - s.eventsCtrl) /
    ((s.totalTrt + s.totalCtrl : ℕ) : ℝ)

/-- Summand `b·c/n` of `S`. -/
noncomputable def mhTermS (s : Study) : ℝ :=
  ((s.totalTrt : ℝ) - s.eventsTrt) * (s.eventsCtrl : ℝ) /
    ((s.totalTrt + s.totalCtrl : ℕ) : ℝ)

/-- Summand `P·R` of the first RBG term. -/
noncomputable def mhTermPR (s : Study) : ℝ :=
  (((s.eventsTrt : ℝ) + ((s.totalCtrl : ℝ) - s.eventsCtrl)) /
      ((s.totalTrt + s.totalCtrl : ℕ) : ℝ)) * mhTermR s

/-- Summand `P·S + Q·R` of the middle RBG term. -/
noncomputable def mhTermPSQR (s : Study) : ℝ :=
  (((s.eventsTrt : ℝ) + ((s.totalCtrl : ℝ) - s.eventsCtrl)) /
      ((s.totalTrt + s.totalCtrl : ℕ) : ℝ)) * mhTermS s +
    ((((s.totalTrt : ℝ) - s.eventsTrt) + (s.eventsCtrl : ℝ)) /
      ((s.totalTrt + s.totalCtrl : ℕ) : ℝ)) * mhTermR s

/-- Summand `Q·S` of the last RBG term. -/
noncomputable def mhTermQS (s : Study) : ℝ :=
  ((((s.totalTrt : ℝ) - s.eventsTrt) + (s.eventsCtrl : ℝ)) /
      ((s.totalTrt + s.totalCtrl : ℕ) : ℝ)) * mhTermS s

noncomputable def mhR (l : List Study) : ℝ := (l.map mhTermR).sum
noncomputable def mhS (l : List Study) : ℝ := (l.map mhTermS).sum
noncomputable def mhPR (l : List Study) : ℝ := (l.map mhTermPR).sum
noncomputable def mhPSQR (l : List Study) : ℝ := (l.map mhTermPSQR).sum
noncomputable def mhQS (l : List Study) : ℝ := (l.map mhTermQS).sum

/-- One step of the source's fold adds exactly the specification summands
(the `n > 0` guard coincides with the division-by-zero convention). -/
lemma mhStep_eq (acc : MHAcc) (s : Study) :
    mhStep acc s = ⟨acc.R + mhTermR s, acc.S + mhTermS s,
      acc.sumPR + mhTermPR s, acc.sumPSQR + mhTermPSQR s,
      acc.sumQS + mhTermQS s⟩ := by
  rw [mhStep]
  by_cases hn : (0 : ℝ) < ((s.totalTrt + s.totalCtrl : ℕ) : ℝ)
  · rw [if_pos hn]
    simp only [mhTermR, mhTermS, mhTermPR, mhTermPSQR, mhTermQS]
  · rw [if_neg hn]
    have hz : ((s.totalTrt + s.totalCtrl : ℕ) : ℝ) = 0 := by
      have := Nat.cast_nonneg (α := ℝ) (s.totalTrt + s.totalCtrl)
      linarith
    simp only [mhTermR, mhTermS, mhTermPR, mhTermPSQR, mhTermQS, hz, div_zero,
      mul_zero, zero_mul, add_zero, zero_add]

/-- The source's fold over a study list computes the specification sums. -/
lemma foldl_mhStep (l : List Study) : ∀ acc : MHAcc,
    l.foldl mhStep acc = ⟨acc.R + mhR l, acc.S + mhS l,
      acc.sumPR + mhPR l, acc.sumPSQR + mhPSQR l,
      acc.sumQS + mhQS l⟩ := by
  induction l with
  | nil =>
      intro acc
      simp [mhR, mhS, mhPR, mhPSQR, mhQS]
  | cons s rest ih =>
      intro acc
      rw [List.foldl_cons, mhStep_eq, ih]
      simp only [mhR, mhS, mhPR, mhPSQR, mhQS, List.map_cons, List.sum_cons]
      simp only [MHAcc.mk.injEq]
      refine ⟨?_, ?_, ?_, ?_, ?_⟩ <;> ring

/-- Claim C3: `calculatePooledOR` retains exactly the non-double-zero
studies; on an empty retained list it returns `OR = 1`, `SE = ∞` (modelled
`none`); otherwise `OR = R/S` when `S > 0` and `1` otherwise, with RBG
variance `ΣPR/(2R²) + Σ(PS+QR)/(2RS) + ΣQS/(2S²)` exactly when `R > 0` and
`S > 0`, and an infinite variance otherwise. -/
theorem claim_C3 (studies : List Study) :
    (∀ s, s ∈ validStudies studies ↔ s ∈ studies ∧
      ¬ (s.eventsTrt = 0 ∧ s.eventsCtrl = 0)) ∧
    (validStudies studies = [] →
      calculatePooledOR studies = { or := 1, se := Option.none }) ∧
    (validStudies studies ≠ [] →
      calculatePooledOR studies =
        { or := if 0 < mhS (validStudies studies) then
              mhR (validStudies studies) / mhS (validStudies studies)
            else 1
          se := if 0 < mhR (validStudies studies) ∧
              0 < mhS (validStudies studies) then
              some (Real.sqrt
                (mhPR (validStudies studies) /
                    (2 * mhR (validStudies studies) *
                      mhR (validStudies studies)) +
                  mhPSQR (validStudies studies) /
                    (2 * mhR (validStudies studies) *
                      mhS (validStudies studies)) +
                  mhQS (validStudies studies) /
                    (2 * mhS (validStudies studies) *
                      mhS (validStudies studies))))
            else Option.none }) := by
  refine ⟨?_, ?_, ?_⟩
  · intro s
    simp [validStudies, List.mem_filter, Decidable.not_and_iff_or_not,
      -Bool.not_and]
  · intro hv
    rw [calculatePooledOR]
    rw [if_pos (by rw [hv]; rfl)]
  · intro hv
    rw [calculatePooledOR,
      if_neg (by simpa [List.length_eq_zero] using hv)]
    rw [foldl_mhStep]
    simp only [zero_add]
    by_cases hRS : 0 < mhR (validStudies studies) ∧
        0 < mhS (validStudies studies)
    · rw [if_pos hRS, if_pos hRS]
    · rw [if_neg hRS, if_neg hRS]

/-- A double-zero study (no events in either arm). -/
def doubleZeroStudy : Study :=
  { name := "DZ", year := 2021, eventsTrt := 0, totalTrt := 30000
    eventsCtrl := 0, totalCtrl := 20000 }

/-- Witness for claim C3: the double-zero singleton takes the degenerate
branch, a genuine study the informative branch. -/
theorem claim_C3_witness :
    calculatePooledOR [doubleZeroStudy] = { or := 1, se := Option.none } ∧
    calculatePooledOR [witnessStudy] =
      { or := if 0 < mhS (validStudies [witnessStudy]) then
            mhR (validStudies [witnessStudy]) / mhS (validStudies [witnessStudy])
          else 1
        se := if 0 < mhR (validStudies [witnessStudy]) ∧
            0 < mhS (validStudies [witnessStudy]) then
            some (Real.sqrt
              (mhPR (validStudies [witnessStudy]) /
                  (2 * mhR (validStudies [witnessStudy]) *
                    mhR (validStudies [witnessStudy])) +
                mhPSQR (validStudies [witnessStudy]) /
                  (2 * mhR (validStudies [witnessStudy]) *
                    mhS (validStudies [witnessStudy])) +
                mhQS (validStudies [witnessStudy]) /
                  (2 * mhS (validStudies [witnessStudy]) *
                    mhS (validStudies [witnessStudy]))))
          else Option.none } :=
  ⟨(claim_C3 [doubleZeroStudy]).2.1 (by decide),
    (claim_C3 [witnessStudy]).2.2 (by decide)⟩

/-!  ## Claim C10: the driver ignores the futility policy field  -/

/-- `mkRecord` reads only `alpha` and `beta` from the parameters. -/
lemma mkRecord_congr (p1 p2 : TSAParams) (ha : p1.alpha = p2.alpha)
    (hb : p1.beta = p2.beta) (ris : ℝ) (cs : List Study) (n : ℕ) (s : Study) :
    mkRecord p1 ris cs n s = mkRecord p2 ris cs n s := by
  rw [mkRecord, mkRecord, ha, hb]

/-- The trace loop reads only `alpha` and `beta` from the parameters. -/
lemma tsaTraceGo_congr (p1 p2 : TSAParams) (ha : p1.alpha = p2.alpha)
    (hb : p1.beta = p2.beta) (ris : ℝ) :
    ∀ (l done : List Study) (c : ℕ),
      tsaTraceGo p1 ris done c l = tsaTraceGo p2 ris done c l
  | [], _, _ => rfl
  | s :: rest, done, c => by
      rw [tsaTraceGo, tsaTraceGo,
        mkRecord_congr p1 p2 ha hb,
        tsaTraceGo_congr p1 p2 ha hb ris rest]

/-- The whole driver reads only the five numeric design parameters. -/
lemma calculateTSA_congr (studies : List Study) (p1 p2 : TSAParams)
    (ha : p1.alpha = p2.alpha) (hb : p1.beta = p2.beta)
    (hc : p1.controlRate = p2.controlRate)
    (he : p1.effectSize = p2.effectSize)
    (hh : p1.heterogeneityCorrection = p2.heterogeneityCorrection) :
    calculateTSA studies p1 = calculateTSA studies p2 := by
  have hris : calculateRIS p1 = calculateRIS p2 := by
    rw [calculateRIS, calculateRIS, ha, hb, hc, he, hh]
  unfold calculateTSA
  simp only [hris, tsaTraceGo_congr p1 p2 ha hb]

/-- The last element of a one-element list. -/
lemma getLastD_single {α : Type} (x d : α) : List.getLastD [x] d = x := rfl

/-- Parameters for the C10 existence part: `futilityBoundaryType = none`,
with a sentinel-RIS design (`p₁ < 0`) so that the single double-zero study
sits at information fraction `1/2`. -/
noncomputable def c10Params : TSAParams :=
  { alpha := 1 / 20, beta := 1 / 5, controlRate := 1 / 2, effectSize := 200
    heterogeneityCorrection := 1, futilityBoundaryType := some .none
    useI2Adjustment := Option.none }

lemma c10_ris : calculateRIS c10Params = 100000 := by
  rw [calculateRIS, c10Params]
  norm_num

lemma c10_pooled : calculatePooledOR [doubleZeroStudy] =
    { or := 1, se := Option.none } := by
  have hv : validStudies [doubleZeroStudy] = [] := by decide
  rw [calculatePooledOR]
  rw [hv]
  rfl

/-- Claim C10: `calculateTSA` is invariant under changes of the
`futilityBoundaryType` field (the driver always computes the
O'Brien-Fleming futility boundary), and even with the `none` policy selected
the trace can contain a positive futility boundary and the interpretation
can be `futility`. -/
theorem claim_C10 :
    (∀ (studies : List Study) (alpha beta controlRate effectSize hcorr : ℝ)
        (f1 f2 : Option FutilityBoundaryType) (u : Option Bool),
      calculateTSA studies
          ⟨alpha, beta, controlRate, effectSize, hcorr, f1, u⟩ =
        calculateTSA studies
          ⟨alpha, beta, controlRate, effectSize, hcorr, f2, u⟩) ∧
    (∃ r, calculateTSA [doubleZeroStudy] c10Params = some r ∧
      0 < (r.cumulativeData.getLastD emptyRecord).futilityBoundary ∧
      r.interpretation = .futility) := by
  constructor
  · intro studies alpha beta controlRate effectSize hcorr f1 f2 u
    exact calculateTSA_congr studies _ _ rfl rfl rfl rfl rfl
  · rw [calculateTSA, if_neg (by norm_num :
      ¬ ([doubleZeroStudy] : List Study).length = 0)]
    have htrace : tsaTraceGo c10Params (calculateRIS c10Params) [] 0
        [doubleZeroStudy] =
        [mkRecord c10Params (calculateRIS c10Params) [doubleZeroStudy]
          50000 doubleZeroStudy] := by
      rw [tsaTraceGo, tsaTraceGo]
      norm_num [doubleZeroStudy]
    have hfrac : ((50000 : ℕ) : ℝ) / calculateRIS c10Params = 1 / 2 := by
      rw [c10_ris]; norm_num
    have hfb : (mkRecord c10Params (calculateRIS c10Params) [doubleZeroStudy]
        50000 doubleZeroStudy).futilityBoundary =
        computeFutilityBoundary (1 / 2) (1 / 5) := by
      rw [mkRecord]
      dsimp only
      rw [hfrac, c10Params]
    have hfbpos : 0 < computeFutilityBoundary (1 / 2) (1 / 5) := by
      rw [computeFutilityBoundary,
        if_neg (by decide : ¬ FutilityBoundaryType.obrienFleming = .none),
        if_neg (by norm_num : ¬ (1 / 2 : ℝ) ≤ 0),
        if_neg (by norm_num : ¬ (1 : ℝ) ≤ 1 / 2)]
      apply lt_min
      · have hq := normalQuantile_pos (1 - (1 / 5) / 2) (by norm_num)
          (by norm_num)
        have hs : (0 : ℝ) < Real.sqrt (1 / 2) := Real.sqrt_pos.2 (by norm_num)
        have := div_pos hq hs
        nlinarith
      · exact normalQuantile_pos (1 - 1 / 5) (by norm_num) (by norm_num)
    have hz : (mkRecord c10Params (calculateRIS c10Params) [doubleZeroStudy]
        50000 doubleZeroStudy).zStatistic = 0 := by
      rw [mkRecord, c10_pooled]
    have hmb : 0 < (mkRecord c10Params (calculateRIS c10Params)
        [doubleZeroStudy] 50000 doubleZeroStudy).monitoringBoundary := by
      rw [mkRecord]
      dsimp only
      rw [hfrac, c10Params]
      rw [computeMonitoringBoundary,
        if_neg (by norm_num : ¬ (1 / 2 : ℝ) ≤ 0),
        if_neg (by norm_num : ¬ (1.5 : ℝ) ≤ 1 / 2)]
      exact div_pos (normalQuantile_pos (1 - (1 / 20) / 2) (by norm_num)
        (by norm_num)) (Real.sqrt_pos.2 (by norm_num))
    refine ⟨_, rfl, ?_, ?_⟩
    · rw [htrace]
      simp only [getLastD_single]
      rw [hfb]
      exact hfbpos
    · dsimp only
      rw [htrace]
      simp only [getLastD_single]
      rw [if_neg (by rw [hz]; simp; linarith [hmb] :
          ¬ (mkRecord c10Params (calculateRIS c10Params) [doubleZeroStudy]
            50000 doubleZeroStudy).monitoringBoundary <
          |(mkRecord c10Params (calculateRIS c10Params) [doubleZeroStudy]
            50000 doubleZeroStudy).zStatistic|)]
      rw [if_pos ⟨by rw [hfb]; exact hfbpos, by rw [hz, hfb]; simpa using
        hfbpos⟩]

/-!  ## Claim C6: trace invariants  -/

/-- Every record of the trace has a patient count strictly above the entry
count, and its information fraction, alpha-spent and monitoring-boundary
fields are the corresponding functions of that patient count. -/
lemma trace_shape (params : TSAParams) (ris : ℝ) :
    ∀ (l done : List Study) (c : ℕ),
      (∀ s ∈ l, 0 < s.totalTrt + s.totalCtrl) →
      ∀ rec ∈ tsaTraceGo params ris done c l,
        c < rec.patients ∧
        rec.informationFraction = (rec.patients : ℝ) / ris ∧
        rec.alphaSpent =
          lanDeMetsAlphaSpending ((rec.patients : ℝ) / ris) params.alpha ∧
        rec.monitoringBoundary =
          computeMonitoringBoundary ((rec.patients : ℝ) / ris) params.alpha
  | [], _, _, _, rec, hrec => by simp [tsaTraceGo] at hrec
  | s :: rest, done, c, hval, rec, hrec => by
      simp only [tsaTraceGo] at hrec
      rcases List.mem_cons.1 hrec with hhead | htail
      · subst hhead
        refine ⟨?_, rfl, rfl, rfl⟩
        have := hval s (List.mem_cons_self s rest)
        change c < c + (s.totalTrt + s.totalCtrl)
        omega
      · have ih := trace_shape params ris rest (done ++ [s])
          (c + (s.totalTrt + s.totalCtrl))
          (fun s' hs' => hval s' (List.mem_cons_of_mem s hs')) rec htail
        exact ⟨by omega, ih.2⟩

/-- Cumulative patient counts strictly increase along the trace. -/
lemma trace_chain_patients (params : TSAParams) (ris : ℝ) :
    ∀ (l done : List Study) (c : ℕ),
      (∀ s ∈ l, 0 < s.totalTrt + s.totalCtrl) →
      List.Chain' (fun a b => a.patients < b.patients)
        (tsaTraceGo params ris done c l)
  | [], _, _, _ => List.chain'_nil
  | [s], done, c, _ => by
      simp only [tsaTraceGo]
      exact List.chain'_singleton _
  | s1 :: s2 :: rest, done, c, hval => by
      have htail := trace_chain_patients params ris (s2 :: rest)
        (done ++ [s1]) (c + (s1.totalTrt + s1.totalCtrl))
        (fun s' hs' => hval s' (List.mem_cons_of_mem s1 hs'))
      simp only [tsaTraceGo] at htail ⊢
      refine List.chain'_cons.2 ⟨?_, htail⟩
      have := hval s2 (List.mem_cons_of_mem s1 (List.mem_cons_self s2 rest))
      change c + (s1.totalTrt + s1.totalCtrl) <
        c + (s1.totalTrt + s1.totalCtrl) + (s2.totalTrt + s2.totalCtrl)
      omega

/-- Claim C6, amended: for a non-empty valid study list and `α, β ∈ (0, 0.5)`
the trace has one record per study, strictly increasing patient counts, and
non-negative alpha-spending that equals `α` exactly from full information
onwards; the alpha-spent values are non-decreasing as long as the
information fractions stay below `1`, and the monitoring boundaries are
non-increasing as long as the fractions stay below `1.5`.  (The original
claim fails beyond those provisos: the boundary clamps up to `z_{α/2}` at
fraction `1.5`, and the `≤ α` bound can be violated by the approximation
round-trip error of order `1e-7` just below full information.) -/
theorem claim_C6_amended (studies : List Study) (params : TSAParams)
    (hne : studies ≠ [])
    (hval : ∀ s ∈ studies, s.eventsTrt ≤ s.totalTrt ∧
      s.eventsCtrl ≤ s.totalCtrl ∧ 0 < s.totalTrt ∧ 0 < s.totalCtrl)
    (ha0 : 0 < params.alpha) (ha1 : params.alpha < 1 / 2)
    (_hb0 : 0 < params.beta) (_hb1 : params.beta < 1 / 2) :
    ∃ r, calculateTSA studies params = some r ∧
      r.cumulativeData.length = studies.length ∧
      List.Chain' (fun a b => a.patients < b.patients) r.cumulativeData ∧
      (∀ rec ∈ r.cumulativeData, 0 ≤ rec.alphaSpent) ∧
      (∀ rec ∈ r.cumulativeData, 1 ≤ rec.informationFraction →
        rec.alphaSpent = params.alpha) ∧
      ((∀ rec ∈ r.cumulativeData, rec.informationFraction < 1) →
        List.Chain' (fun a b => a.alphaSpent ≤ b.alphaSpent)
          r.cumulativeData) ∧
      ((∀ rec ∈ r.cumulativeData, rec.informationFraction < 1.5) →
        List.Chain' (fun a b => b.monitoringBoundary ≤ a.monitoringBoundary)
          r.cumulativeData) := by
  have hne' : ¬ studies.length = 0 := by simpa [List.length_eq_zero] using hne
  have htot : ∀ s ∈ studies, 0 < s.totalTrt + s.totalCtrl := by
    intro s hs
    have := hval s hs
    omega
  rw [calculateTSA, if_neg hne']
  refine ⟨_, rfl, tsaTraceGo_length _ _ _ _ _, ?_⟩
  dsimp only
  set ris := calculateRIS params with hris
  set trace := tsaTraceGo params ris [] 0 studies with htr
  have hshape := trace_shape params ris studies [] 0 htot
  have hpat := trace_chain_patients params ris studies [] 0 htot
  refine ⟨hpat, ?_, ?_, ?_, ?_⟩
  · intro rec hrec
    rw [(hshape rec hrec).2.2.1]
    exact lanDeMetsAlphaSpending_nonneg _ _ ha0 (by linarith)
  · intro rec hrec hfrac
    rw [(hshape rec hrec).2.1] at hfrac
    rw [(hshape rec hrec).2.2.1, lanDeMetsAlphaSpending,
      if_neg (by linarith), if_pos hfrac]
  · intro hfrac
    rw [List.chain'_iff_get] at hpat ⊢
    intro i hi
    have hm1 := List.get_mem trace i (by omega)
    have hm2 := List.get_mem trace (i + 1) (by omega)
    have sh1 := hshape _ hm1
    have sh2 := hshape _ hm2
    have hp12 := hpat i hi
    rw [sh1.2.2.1, sh2.2.2.1]
    rcases lt_trichotomy ris 0 with hr | hr | hr
    · have ht1 : ((trace.get ⟨i, by omega⟩).patients : ℝ) / ris ≤ 0 :=
        le_of_lt (div_neg_of_pos_of_neg (by exact_mod_cast sh1.1) hr)
      have ht2 : ((trace.get ⟨i + 1, by omega⟩).patients : ℝ) / ris ≤ 0 :=
        le_of_lt (div_neg_of_pos_of_neg (by exact_mod_cast sh2.1) hr)
      rw [lanDeMetsAlphaSpending, lanDeMetsAlphaSpending, if_pos ht1,
        if_pos ht2]
    · rw [hr]
      simp [lanDeMetsAlphaSpending]
    · apply lanDeMetsAlphaSpending_mono _ _ _ ha0 (by linarith)
      · exact (div_le_div_iff_of_pos_right hr).2 (by exact_mod_cast hp12.le)
      · have := hfrac _ hm2
        rw [sh2.2.1] at this
        exact this
  · intro hfrac
    rw [List.chain'_iff_get] at hpat ⊢
    intro i hi
    have hm1 := List.get_mem trace i (by omega)
    have hm2 := List.get_mem trace (i + 1) (by omega)
    have sh1 := hshape _ hm1
    have sh2 := hshape _ hm2
    have hp12 := hpat i hi
    rw [sh1.2.2.2, sh2.2.2.2]
    rcases lt_trichotomy ris 0 with hr | hr | hr
    · have ht1 : ((trace.get ⟨i, by omega⟩).patients : ℝ) / ris ≤ 0 :=
        le_of_lt (div_neg_of_pos_of_neg (by exact_mod_cast sh1.1) hr)
      have ht2 : ((trace.get ⟨i + 1, by omega⟩).patients : ℝ) / ris ≤ 0 :=
        le_of_lt (div_neg_of_pos_of_neg (by exact_mod_cast sh2.1) hr)
      rw [computeMonitoringBoundary, computeMonitoringBoundary, if_pos ht2,
        if_pos ht1]
    · rw [hr]
      simp [computeMonitoringBoundary]
    · apply computeMonitoringBoundary_anti _ _ _ ha0 (by linarith)
      · exact div_pos (by exact_mod_cast sh1.1) hr
      · exact (div_le_div_iff_of_pos_right hr).2 (by exact_mod_cast hp12.le)
      · have := hfrac _ hm2
        rw [sh2.2.1] at this
        exact this

/-- First study of the C6 counterexample (140 000 patients). -/
def c6s1 : Study :=
  { name := "A", year := 2020, eventsTrt := 1, totalTrt := 100000
    eventsCtrl := 1, totalCtrl := 40000 }

/-- Second study of the C6 counterexample (20 000 more patients, carrying the
cumulative count across `1.5 × RIS`). -/
def c6s2 : Study :=
  { name := "B", year := 2021, eventsTrt := 1, totalTrt := 10000
    eventsCtrl := 1, totalCtrl := 10000 }

/-- Parameters of the C6 counterexample: a sentinel-RIS design
(`p₁ = 0.5·(1-200/100) < 0`, hence `RIS = 100000`), `α = 0.05`,
`β = 0.2`. -/
noncomputable def c6Params : TSAParams :=
  { alpha := 1 / 20, beta := 1 / 5, controlRate := 1 / 2, effectSize := 200
    heterogeneityCorrection := 1, futilityBoundaryType := some .obrienFleming
    useI2Adjustment := Option.none }

lemma c6_ris : calculateRIS c6Params = 100000 := by
  rw [calculateRIS, c6Params]
  norm_num

/-- Counterexample to claim C6 as stated: with valid studies and standard
`α = 0.05`, `β = 0.2`, the trace's monitoring boundary INCREASES from the
first record (fraction `1.4`, boundary `z_{α/2}/√1.4`) to the second
(fraction `1.6 ≥ 1.5`, where the source clamps the boundary up to
`z_{α/2}`), so the boundaries are not non-increasing. -/
theorem claim_C6_counterexample :
    c6s1.eventsTrt ≤ c6s1.totalTrt ∧ c6s1.eventsCtrl ≤ c6s1.totalCtrl ∧
    0 < c6s1.totalTrt ∧ 0 < c6s1.totalCtrl ∧
    c6s2.eventsTrt ≤ c6s2.totalTrt ∧ c6s2.eventsCtrl ≤ c6s2.totalCtrl ∧
    0 < c6s2.totalTrt ∧ 0 < c6s2.totalCtrl ∧
    0 < c6Params.alpha ∧ c6Params.alpha < 1 / 2 ∧
    0 < c6Params.beta ∧ c6Params.beta < 1 / 2 ∧
    (calculateTSA [c6s1, c6s2] c6Params).elim 0
      (fun r => r.cumulativeData.length) = 2 ∧
    (calculateTSA [c6s1, c6s2] c6Params).elim 0
        (fun r => (r.cumulativeData.getD 0 emptyRecord).monitoringBoundary) <
      (calculateTSA [c6s1, c6s2] c6Params).elim 0
        (fun r => (r.cumulativeData.getD 1 emptyRecord).monitoringBoundary) := by
  refine ⟨by decide, by decide, by decide, by decide, by decide, by decide,
    by decide, by decide, by norm_num [c6Params], by norm_num [c6Params],
    by norm_num [c6Params], by norm_num [c6Params], ?_, ?_⟩ <;>
  rw [calculateTSA, if_neg (by norm_num :
      ¬ ([c6s1, c6s2] : List Study).length = 0)]
  · simp [tsaTraceGo_length]
  · have htrace : tsaTraceGo c6Params (calculateRIS c6Params) [] 0
        [c6s1, c6s2] =
        [mkRecord c6Params (calculateRIS c6Params) [c6s1] 140000 c6s1,
         mkRecord c6Params (calculateRIS c6Params) [c6s1, c6s2] 160000 c6s2] := by
      simp only [tsaTraceGo]
      norm_num [c6s1, c6s2]
    dsimp only [Option.elim]
    rw [htrace]
    simp only [List.getD, List.get?_cons_zero, List.get?_cons_succ,
      List.getElem?_cons_zero, List.getElem?_cons_succ, Option.getD_some]
    have hfrac1 : ((140000 : ℕ) : ℝ) / calculateRIS c6Params = 7 / 5 := by
      rw [c6_ris]; norm_num
    have hfrac2 : ((160000 : ℕ) : ℝ) / calculateRIS c6Params = 8 / 5 := by
      rw [c6_ris]; norm_num
    have hmb1 : (mkRecord c6Params (calculateRIS c6Params) [c6s1] 140000
        c6s1).monitoringBoundary =
        normalQuantile (1 - c6Params.alpha / 2) / Real.sqrt (7 / 5) := by
      rw [mkRecord]
      dsimp only
      rw [hfrac1, computeMonitoringBoundary,
        if_neg (by norm_num : ¬ (7 / 5 : ℝ) ≤ 0),
        if_neg (by norm_num : ¬ (1.5 : ℝ) ≤ 7 / 5)]
    have hmb2 : (mkRecord c6Params (calculateRIS c6Params) [c6s1, c6s2]
        160000 c6s2).monitoringBoundary =
        normalQuantile (1 - c6Params.alpha / 2) := by
      rw [mkRecord]
      dsimp only
      rw [hfrac2, computeMonitoringBoundary,
        if_neg (by norm_num : ¬ (8 / 5 : ℝ) ≤ 0),
        if_pos (by norm_num : (1.5 : ℝ) ≤ 8 / 5)]
    rw [hmb1, hmb2]
    have hz : 0 < normalQuantile (1 - c6Params.alpha / 2) := by
      apply normalQuantile_pos <;> norm_num [c6Params]
    apply div_lt_self hz
    rw [show (1 : ℝ) = Real.sqrt 1 from (Real.sqrt_one).symm]
    exact Real.sqrt_lt_sqrt (by norm_num) (by norm_num)

/-- Witness for the amended claim C6 on a concrete one-study list with the
standard design parameters. -/
theorem claim_C6_amended_witness :
    ∃ r, calculateTSA [witnessStudy] witnessParams = some r ∧
      r.cumulativeData.length = [witnessStudy].length ∧
      List.Chain' (fun a b => a.patients < b.patients) r.cumulativeData ∧
      (∀ rec ∈ r.cumulativeData, 0 ≤ rec.alphaSpent) ∧
      (∀ rec ∈ r.cumulativeData, 1 ≤ rec.informationFraction →
        rec.alphaSpent = witnessParams.alpha) ∧
      ((∀ rec ∈ r.cumulativeData, rec.informationFraction < 1) →
        List.Chain' (fun a b => a.alphaSpent ≤ b.alphaSpent)
          r.cumulativeData) ∧
      ((∀ rec ∈ r.cumulativeData, rec.informationFraction < 1.5) →
        List.Chain' (fun a b => b.monitoringBoundary ≤ a.monitoringBoundary)
          r.cumulativeData) :=
  claim_C6_amended [witnessStudy] witnessParams (by simp) (by decide)
    (by norm_num [witnessParams]) (by norm_num [witnessParams])
    (by norm_num [witnessParams]) (by norm_num [witnessParams])

/-!  ## Claims  -/

/-- Claim C2: `calculateTSA` returns an absent result exactly on the empty
study list; on every non-empty list it returns a value whose trace is
non-empty (it is total, so it never throws). -/
theorem claim_C2 (studies : List Study) (params : TSAParams) :
    (studies = [] → calculateTSA studies params = Option.none) ∧
    (studies ≠ [] → ∃ r, calculateTSA studies params = some r ∧
      r.cumulativeData ≠ []) := by
  constructor
  · rintro rfl
    simp [calculateTSA]
  · intro h
    have hne : ¬ studies.length = 0 := by
      simpa [List.length_eq_zero] using h
    rw [calculateTSA, if_neg hne]
    refine ⟨_, rfl, ?_⟩
    cases studies with
    | nil => exact absurd rfl h
    | cons s rest => simp [tsaTraceGo]

/-- Witness for claim C2 at a concrete empty and one-study input. -/
theorem claim_C2_witness :
    calculateTSA [] witnessParams = Option.none ∧
    (∃ r, calculateTSA [witnessStudy] witnessParams = some r ∧
      r.cumulativeData ≠ []) :=
  ⟨(claim_C2 [] witnessParams).1 rfl,
    (claim_C2 [witnessStudy] witnessParams).2 (by simp)⟩

/-- Claim C9: with fewer than two studies, `calculateHeterogeneity` returns
exactly `Q = 0`, `I² = 0`, `τ² = 0`, `p = 1`, for any study contents. -/
theorem claim_C9 (studies : List Study) (h : studies.length < 2) :
    calculateHeterogeneity studies =
      { q := 0, i2 := 0, tau2 := 0, pValue := 1 } := by
  rw [calculateHeterogeneity, if_pos h]

/-- Witness for claim C9 at a concrete one-study input. -/
theorem claim_C9_witness :
    ([witnessStudy] : List Study).length < 2 ∧
    calculateHeterogeneity [witnessStudy] =
      { q := 0, i2 := 0, tau2 := 0, pValue := 1 } :=
  ⟨by decide, claim_C9 [witnessStudy] (by decide)⟩

/-- Claim C8: `calculateRIS` is total (never raises) and computes exactly the
specification formula: the sentinel `100000` when `p₀` or
`p₁ = p₀·(1 - RRR/100)` falls outside `(0,1)` or when the anticipated
log-odds-ratio is below `0.001` in absolute value, and otherwise
`⌈(z_{α/2}+z_β)²·varComponent/ln(OR)² · 2 · h⌉`. -/
theorem claim_C8 (params : TSAParams) :
    calculateRIS params = calculateRISSpec params := rfl

/-- Claim C1: on every non-empty study list the driver processes the full
list (one record per input study, no early termination) and derives the
interpretation tag from the final record alone, by the stated rule:
conclusive-benefit / conclusive-harm when `|Z|` exceeds the final monitoring
boundary (by the sign of `Z`), futility when the final futility boundary is
positive and `|Z|` is below it, inconclusive otherwise. -/
theorem claim_C1 (studies : List Study) (params : TSAParams)
    (h : studies ≠ []) :
    ∃ r, calculateTSA studies params = some r ∧
      r.cumulativeData.length = studies.length ∧
      (let L := r.cumulativeData.getLastD emptyRecord;
       (L.monitoringBoundary < |L.zStatistic| → 0 < L.zStatistic →
          r.interpretation = .conclusiveBenefit) ∧
       (L.monitoringBoundary < |L.zStatistic| → L.zStatistic < 0 →
          r.interpretation = .conclusiveHarm) ∧
       (¬ L.monitoringBoundary < |L.zStatistic| → 0 < L.futilityBoundary →
          |L.zStatistic| < L.futilityBoundary →
          r.interpretation = .futility) ∧
       (¬ L.monitoringBoundary < |L.zStatistic| →
          ¬ (0 < L.futilityBoundary ∧ |L.zStatistic| < L.futilityBoundary) →
          r.interpretation = .inconclusive)) := by
  have hne : ¬ studies.length = 0 := by simpa [List.length_eq_zero] using h
  rw [calculateTSA, if_neg hne]
  refine ⟨_, rfl, tsaTraceGo_length _ _ _ _ _, ?_, ?_, ?_, ?_⟩ <;> dsimp only
  · intro h1 h2
    rw [if_pos h1, if_pos h2]
  · intro h1 h2
    rw [if_pos h1, if_neg (asymm h2)]
  · intro h1 h2 h3
    rw [if_neg h1, if_pos ⟨h2, h3⟩]
  · intro h1 h2
    rw [if_neg h1, if_neg h2]

/-- Witness for claim C1 at a concrete one-study input. -/
theorem claim_C1_witness :
    ∃ r, calculateTSA [witnessStudy] witnessParams = some r ∧
      r.cumulativeData.length = [witnessStudy].length ∧
      (let L := r.cumulativeData.getLastD emptyRecord;
       (L.monitoringBoundary < |L.zStatistic| → 0 < L.zStatistic →
          r.interpretation = .conclusiveBenefit) ∧
       (L.monitoringBoundary < |L.zStatistic| → L.zStatistic < 0 →
          r.interpretation = .conclusiveHarm) ∧
       (¬ L.monitoringBoundary < |L.zStatistic| → 0 < L.futilityBoundary →
          |L.zStatistic| < L.futilityBoundary →
          r.interpretation = .futility) ∧
       (¬ L.monitoringBoundary < |L.zStatistic| →
          ¬ (0 < L.futilityBoundary ∧ |L.zStatistic| < L.futilityBoundary) →
          r.interpretation = .inconclusive)) :=
  claim_C1 [witnessStudy] witnessParams (by simp)

/-- Claim C5: the study-level estimator applies the 0.5 continuity
correction to all four cells exactly when some cell of the (real-valued)
2×2 table is zero, and computes `OR = ad/(bc)`, `SE = √(1/a+1/b+1/c+1/d)`,
`weight = 1/SE²` from the possibly corrected cells.  The validity
hypotheses of the claim (events ≤ totals, totals > 0) are carried but the
identity holds for arbitrary counts. -/
theorem claim_C5 (s : Study)
    (_h₁ : s.eventsTrt ≤ s.totalTrt) (_h₂ : s.eventsCtrl ≤ s.totalCtrl)
    (_h₃ : 0 < s.totalTrt) (_h₄ : 0 < s.totalCtrl) :
    (let a : ℝ := s.eventsTrt;
     let b : ℝ := (s.totalTrt : ℝ) - s.eventsTrt;
     let c : ℝ := s.eventsCtrl;
     let d : ℝ := (s.totalCtrl : ℝ) - s.eventsCtrl;
     ((a = 0 ∨ b = 0 ∨ c = 0 ∨ d = 0) →
        calculateStudyOR s =
          { or := ((a + 0.5) * (d + 0.5)) / ((b + 0.5) * (c + 0.5))
            se := Real.sqrt (1 / (a + 0.5) + 1 / (b + 0.5) + 1 / (c + 0.5) +
                1 / (d + 0.5))
            weight := 1 / (Real.sqrt (1 / (a + 0.5) + 1 / (b + 0.5) +
                  1 / (c + 0.5) + 1 / (d + 0.5)) *
                Real.sqrt (1 / (a + 0.5) + 1 / (b + 0.5) + 1 / (c + 0.5) +
                  1 / (d + 0.5))) }) ∧
     (¬ (a = 0 ∨ b = 0 ∨ c = 0 ∨ d = 0) →
        calculateStudyOR s =
          { or := (a * d) / (b * c)
            se := Real.sqrt (1 / a + 1 / b + 1 / c + 1 / d)
            weight := 1 / (Real.sqrt (1 / a + 1 / b + 1 / c + 1 / d) *
                Real.sqrt (1 / a + 1 / b + 1 / c + 1 / d)) })) := by
  constructor
  · intro hz
    rw [calculateStudyOR]
    simp only [if_pos hz]
  · intro hz
    rw [calculateStudyOR]
    simp only [if_neg hz]

/-- A concrete study with a zero treatment-events cell. -/
def zeroCellStudy : Study :=
  { name := "Z", year := 2000, eventsTrt := 0, totalTrt := 50
    eventsCtrl := 10, totalCtrl := 50 }

/-- Witness for claim C5: a single-zero-cell study takes the corrected
branch. -/
theorem claim_C5_witness :
    (0 : ℕ) ≤ 50 ∧ (10 : ℕ) ≤ 50 ∧ (0 : ℕ) < 50 ∧
    calculateStudyOR zeroCellStudy =
      { or := ((0 + 0.5) * ((50 - 10) + 0.5)) /
            (((50 - 0) + 0.5) * (10 + 0.5))
        se := Real.sqrt (1 / ((0 : ℝ) + 0.5) + 1 / ((50 - 0) + 0.5) +
            1 / ((10 : ℝ) + 0.5) + 1 / ((50 - 10) + 0.5))
        weight := 1 / (Real.sqrt (1 / ((0 : ℝ) + 0.5) + 1 / ((50 - 0) + 0.5) +
              1 / ((10 : ℝ) + 0.5) + 1 / ((50 - 10) + 0.5)) *
            Real.sqrt (1 / ((0 : ℝ) + 0.5) + 1 / ((50 - 0) + 0.5) +
              1 / ((10 : ℝ) + 0.5) + 1 / ((50 - 10) + 0.5))) } := by
  refine ⟨by decide, by decide, by decide, ?_⟩
  have := (claim_C5 zeroCellStudy
      (by decide) (by decide) (by decide) (by decide)).1 (by norm_num [zeroCellStudy])
  rw [this]
  norm_num [zeroCellStudy]

end TSAEngine
